import Mathlib

/-!
Shallow embedding of the dgrams repository (Go): the frame ingestion
pipeline (Socket.RecvEthernet), the connection state machine (Socket.rx,
connState.frameRcv) and the RFC 791 checksum accumulator (CRC_RFC791),
together with theorems settling the specification claims.

Byte buffers are modelled as List Nat whose elements stand for uint8
values; getByte reduces reads modulo 256, mirroring the fact that Go
byte slices hold 8-bit values.  Machine integers are modelled as Nat
with explicit reductions modulo 2 to the relevant power wherever the Go
code can overflow.  Go panics are modelled as a distinguished outcome,
separate from returned errors.
-/

/-- TCP connection states, in the declaration order of the Go `State`
enumeration in package tcpctl. -/
inductive State where
  | Closed
  | Listen
  | SynRcvd
  | SynSent
  | Established
  | FinWait1
  | FinWait2
  | Closing
  | TimeWait
  | CloseWait
  | LastAck
  deriving DecidableEq, Repr

/-- Send Sequence Space data, from tcpctl.sendSpace.  All sequence fields
are 32-bit values modelled as Nat. -/
structure sendSpace where
  UNA : Nat
  NXT : Nat
  WND : Nat
  WL1 : Nat
  WL2 : Nat
  iss : Nat
  UP  : Bool
  deriving DecidableEq, Repr

/-- Receive Sequence Space data, from tcpctl.rcvSpace. -/
structure rcvSpace where
  NXT : Nat
  WND : Nat
  irs : Nat
  UP  : Bool
  deriving DecidableEq, Repr

/-- Connection state, from tcpctl.connState (the mutex only guards the
fields and carries no data, so it is not modelled). -/
structure connState where
  snd : sendSpace
  rcv : rcvSpace
  state : State
  deriving DecidableEq, Repr

/-- The zero value of a Go tcpctl.Socket: all sequence fields zero and
state Closed (the zero State). -/
def zeroConn : connState :=
  { snd := { UNA := 0, NXT := 0, WND := 0, WL1 := 0, WL2 := 0, iss := 0, UP := false }
    rcv := { NXT := 0, WND := 0, irs := 0, UP := false }
    state := .Closed }

/-- Modelled from the spec: Socket.Listen calls cs.SetState(StateListen);
SetState is not among the provided sources, and per the spec listen
"transitions a fresh socket to Listen state". -/
def listen (cs : connState) : connState := { cs with state := .Listen }

/-- Read byte i of a buffer.  Go byte slices hold uint8 values, hence the
reduction modulo 256; out-of-range reads never occur on the paths the
code takes (every decode is preceded by a length check). -/
def getByte (buf : List Nat) (i : Nat) : Nat := buf.getD i 0 % 256

/-- binary.BigEndian.Uint16 of the two bytes at offset i. -/
def be16 (buf : List Nat) (i : Nat) : Nat := getByte buf i * 256 + getByte buf (i + 1)

/-- binary.BigEndian.Uint32 of the four bytes at offset i. -/
def be32 (buf : List Nat) (i : Nat) : Nat :=
  ((getByte buf i * 256 + getByte buf (i + 1)) * 256 + getByte buf (i + 2)) * 256
    + getByte buf (i + 3)

/-- EthernetHeader, from dgrams.EthernetHeader. -/
structure EthernetHeader where
  Destination : List Nat
  Source : List Nat
  SizeOrEtherType : Nat
  deriving DecidableEq, Repr

/-- dgrams.DecodeEthernetHeader: fixed-offset reads of the 14-byte
Ethernet header. -/
def DecodeEthernetHeader (b : List Nat) : EthernetHeader :=
  { Destination := (b.take 6).map (· % 256)
    Source := ((b.drop 6).take 6).map (· % 256)
    SizeOrEtherType := be16 b 12 }

/-- EthernetHeader.IsVLAN: SizeOrEtherType equals the VLAN TPID 0x8100. -/
def EthernetHeader.IsVLAN (e : EthernetHeader) : Bool := e.SizeOrEtherType = 0x8100

/-- IPv4Header, from dgrams.IPv4Header. -/
structure IPv4Header where
  Version : Nat
  IHL : Nat
  TotalLength : Nat
  ID : Nat
  Flags : Nat
  TTL : Nat
  Protocol : Nat
  Checksum : Nat
  Source : List Nat
  Destination : List Nat
  deriving DecidableEq, Repr

/-- dgrams.DecodeIPv4Header: fixed-offset reads of the 20-byte IPv4
header. -/
def DecodeIPv4Header (b : List Nat) : IPv4Header :=
  { Version := getByte b 0
    IHL := getByte b 1
    TotalLength := be16 b 2
    ID := be16 b 4
    Flags := be16 b 6
    TTL := getByte b 8
    Protocol := getByte b 9
    Checksum := be16 b 10
    Source := ((b.drop 12).take 4).map (· % 256)
    Destination := ((b.drop 16).take 4).map (· % 256) }

/-- TCPHeader, from dgrams.TCPHeader (OffsetAndFlags is the single
16-bit bitfield element of the Go [1]uint16 array). -/
structure TCPHeader where
  SourcePort : Nat
  DestinationPort : Nat
  Seq : Nat
  Ack : Nat
  OffsetAndFlags : Nat
  WindowSize : Nat
  Checksum : Nat
  UrgentPtr : Nat
  deriving DecidableEq, Repr

/-- dgrams.DecodeTCPHeader: fixed-offset reads of the 20-byte TCP
header. -/
def DecodeTCPHeader (b : List Nat) : TCPHeader :=
  { SourcePort := be16 b 0
    DestinationPort := be16 b 2
    Seq := be32 b 4
    Ack := be32 b 8
    OffsetAndFlags := be16 b 12
    WindowSize := be16 b 14
    Checksum := be16 b 16
    UrgentPtr := be16 b 18 }

/-- TCPHeader.Flags: the low 9 bits of OffsetAndFlags (tcpFlagmask is
0x01ff, and masking with 0x1ff equals reduction modulo 512). -/
def TCPHeader.Flags (t : TCPHeader) : Nat := t.OffsetAndFlags % 512

/-- dgrams.FlagTCP_SYN = 1 <<< 1. -/
def FlagTCP_SYN : Nat := 2

/-- TCPHeader.Offset: the top 4 bits of the 16-bit OffsetAndFlags field
(shift right by 12; the uint8 conversion in Go is exact because the
field is below 2 ^ 16).  The Go method panics when the offset is below
5, modelled as none. -/
def TCPHeader.Offset (t : TCPHeader) : Option Nat :=
  let offset := t.OffsetAndFlags / 4096
  if offset < 5 then none else some offset

/-- TCPHeader.OffsetInBytes: Offset times tcpWordlen = 4, propagating the
panic of Offset. -/
def TCPHeader.OffsetInBytes (t : TCPHeader) : Option Nat :=
  (t.Offset).map (· * 4)

/-- Errors returned by the ingestion pipeline and the state machine, one
constructor per distinct errors.New / fmt.Errorf site reachable from
Socket.RecvEthernet and connState.frameRcv. -/
inductive RecvError where
  | bufferTooLong
  | bufferTooShort
  | vlanUnsupported
  | notIPv4
  | truncatedFrame
  | notTCP
  | garbageTcpOffset
  | payloadOutOfBounds
  | connClosed
  | unhandledState
  | badAck
  deriving DecidableEq, Repr

/-- Outcome of a call that in Go can return a value, return an error, or
panic. -/
inductive RecvOutcome where
  | ok (payloadStart payloadEnd : Nat)
  | err (e : RecvError)
  | panicked
  deriving DecidableEq, Repr

/-- Socket.rx from the tcpctl package: dispatch on the connection state.
In Listen, only a segment whose flags are exactly SYN is processed: the
send space is initialized from the hardcoded iss = 0 (the Go source
reads "var iss uint32 = 0" with a TODO to randomize) and the receive
space from the segment; the Go code performs no state transition in this
case.  In SynRcvd the Go case body is empty.  Additions on 32-bit
fields are reduced modulo 2 ^ 32. -/
def rx (cs : connState) (hdr : TCPHeader) : Option RecvError × connState :=
  match cs.state with
  | .Closed => (some .connClosed, cs)
  | .Listen =>
    if hdr.Flags ≠ FlagTCP_SYN then (none, cs)
    else
      let iss : Nat := 0
      (none,
        { cs with
          snd := { iss := iss, UNA := iss, NXT := (iss + 1) % 2 ^ 32, WND := 10
                   WL1 := 0, WL2 := 0, UP := false }
          rcv := { irs := hdr.Seq, NXT := hdr.Seq, WND := hdr.WindowSize, UP := false } })
  | .SynRcvd => (none, cs)
  | _ => (some .unhandledState, cs)

/-- Socket.RecvEthernet: length checks, Ethernet / IPv4 / TCP decoding
with the validation chain of the Go source, then rx.  The uint16
arithmetic of the Go code (buflen, payloadEnd) is reduced modulo 2 ^ 16;
the buflen truncation is only observable after the too-long check, so on
every path buflen equals the list length.  The panic inside
TCPHeader.Offset surfaces as the panicked outcome. -/
def RecvEthernet (cs : connState) (buf : List Nat) : RecvOutcome × connState :=
  if buf.length > 65535 then (.err .bufferTooLong, cs)
  else if buf.length < 14 + 20 + 20 then (.err .bufferTooShort, cs)
  else
    let eth := DecodeEthernetHeader buf
    if eth.IsVLAN then (.err .vlanUnsupported, cs)
    else if eth.SizeOrEtherType ≠ 0x0800 then (.err .notIPv4, cs)
    else
      let ip := DecodeIPv4Header (buf.drop 14)
      let payloadEnd := (ip.TotalLength + 14) % 2 ^ 16
      if payloadEnd > buf.length then (.err .truncatedFrame, cs)
      else if ip.Protocol ≠ 6 then (.err .notTCP, cs)
      else
        let tcp := DecodeTCPHeader (buf.drop (14 + 20))
        match tcp.OffsetInBytes with
        | none => (.panicked, cs)
        | some nb =>
          if nb < 20 then (.err .garbageTcpOffset, cs)
          else
            let payloadStart := (nb + 14 + 20) % 2 ^ 16
            if payloadStart > buf.length then (.err .payloadOutOfBounds, cs)
            else
              match rx cs tcp with
              | (some e, cs2) => (.err e, cs2)
              | (none, cs2) => (.ok payloadStart payloadEnd, cs2)

/-- connState.frameRcv from tcpctl/connstate.go: the ACK validation
switch.  Both comparisons are native unsigned comparisons in the Go
source.  The Go function body ends without a final return statement
after the error check; the only value the written code can produce past
that point is the named result err, hence none here. -/
def frameRcv (cs : connState) (hdr : TCPHeader) : Option RecvError :=
  if hdr.Ack ≤ cs.snd.UNA then some .badAck
  else if hdr.Ack > cs.snd.NXT then some .badAck
  else none

/-- Modelled from the spec: seq_lt(a, b) = (int32)(a - b) < 0, the
wraparound-safe ordering of 32-bit sequence numbers (the repository
sources contain no such operator; the spec prescribes it).  The signed
interpretation of the 32-bit difference is negative exactly when the
difference modulo 2 ^ 32 is at least 2 ^ 31. -/
def seqLt (a b : Nat) : Bool := (a + 2 ^ 32 - b % 2 ^ 32) % 2 ^ 32 ≥ 2 ^ 31

/-- Modelled from the spec: seq_leq built from seq_lt. -/
def seqLeq (a b : Nat) : Bool := seqLt a b || a % 2 ^ 32 = b % 2 ^ 32

/-- Modelled from the spec: the SynRcvd acceptance window
send.UNA < ack and ack ≤ send.NXT under mod-wrapped comparison. -/
def ackAcceptableSpec (una nxt ack : Nat) : Bool := seqLt una ack && seqLeq ack nxt

/-- The literal 74-byte SYN frame of TestSynReceive (packetSyn). -/
def packetSyn : List Nat :=
  [0xde, 0xad, 0xbe, 0xef, 0xfe, 0xff, 0x28, 0xd2, 0x44, 0x9a, 0x2f, 0xf3, 0x08, 0x00, 0x45, 0x00,
   0x00, 0x3c, 0x2c, 0xda, 0x40, 0x00, 0x40, 0x06, 0x8a, 0x1c, 0xc0, 0xa8, 0x01, 0x70, 0xc0, 0xa8,
   0x01, 0x05, 0xe6, 0x28, 0x00, 0x50, 0x3e, 0xab, 0x64, 0xf7, 0x00, 0x00, 0x00, 0x00, 0xa0, 0x02,
   0xfa, 0xf0, 0xbf, 0x4c, 0x00, 0x00, 0x02, 0x04, 0x05, 0xb4, 0x04, 0x02, 0x08, 0x0a, 0x08, 0xa2,
   0x77, 0x3f, 0x00, 0x00, 0x00, 0x00, 0x01, 0x03, 0x03, 0x07]

/-- CRC_RFC791 accumulator from dgrams/crc.go: sum is the running uint32
sum, excedent the pending odd byte, needsPad whether an odd byte is
pending. -/
structure CRC_RFC791 where
  sum : Nat
  excedent : Nat
  needsPad : Bool
  deriving DecidableEq, Repr

/-- The zero value of CRC_RFC791, also the state after Reset. -/
def crcInit : CRC_RFC791 := { sum := 0, excedent := 0, needsPad := false }

/-- The even/odd split and pair loop of CRC_RFC791.Write expressed as a
two-byte recursion: 16-bit big-endian words are added in order with
uint32 (modulo 2 ^ 32) addition; a final unpaired byte is stored in
excedent with needsPad set, exactly as the Go code does before its
loop. -/
def crcWriteAligned (c : CRC_RFC791) : List Nat → CRC_RFC791
  | b0 :: b1 :: rest =>
    crcWriteAligned { c with sum := (c.sum + (b0 % 256 * 256 + b1 % 256)) % 2 ^ 32 } rest
  | [b0] => { c with excedent := b0 % 256, needsPad := true }
  | [] => c

/-- CRC_RFC791.Write.  When a pad is pending, Go reads buff[0] before any
length test, so an empty slice panics (none); otherwise the pending
excedent is completed into a word and the rest processed as aligned
data. -/
def crcWrite (c : CRC_RFC791) (buff : List Nat) : Option CRC_RFC791 :=
  if c.needsPad then
    match buff with
    | [] => none
    | b0 :: rest =>
      some (crcWriteAligned
        { c with sum := (c.sum + (c.excedent % 256 * 256 + b0 % 256)) % 2 ^ 32
                 needsPad := false } rest)
  else some (crcWriteAligned c buff)

/-- Consecutive Write calls over a list of chunks. -/
def crcWriteMulti (c : CRC_RFC791) : List (List Nat) → Option CRC_RFC791
  | [] => some c
  | p :: ps =>
    match crcWrite c p with
    | none => none
    | some c2 => crcWriteMulti c2 ps

/-- The carry-folding loop of CRC_RFC791.Sum: while sum exceeds 0xffff
(65535), replace it by its low 16 bits plus its high bits (in Go,
sum&0xffff + sum>>16). -/
def foldCarry (s : Nat) : Nat :=
  if s > 65535 then foldCarry (s % 65536 + s / 65536) else s
termination_by s
decreasing_by omega

/-- The accumulated 32-bit sum with a pending pad applied (excedent as
the high byte of a zero-padded word, uint32 addition): the quantity
CRC_RFC791.Sum folds. -/
def crcPaddedSum (c : CRC_RFC791) : Nat :=
  if c.needsPad then (c.sum + c.excedent % 256 * 256) % 2 ^ 32 else c.sum

/-- CRC_RFC791.Sum as a value: apply a pending pad, fold carries, and
return the ones complement of the 16-bit result (for x at most 65535,
the complement is 65535 - x).  The Go method also stores the folded sum
back into the receiver; the claims only concern the returned value. -/
def crcSum (c : CRC_RFC791) : Nat :=
  65535 - foldCarry (crcPaddedSum c)

/-- CRC_RFC791.Reset: zero every field. -/
def crcReset (_ : CRC_RFC791) : CRC_RFC791 :=
  { sum := 0, excedent := 0, needsPad := false }

/-- One byte fed to the accumulator: the byte-at-a-time reading of the
Write algorithm, used to relate chunked Writes to a single Write. -/
def crcPush (c : CRC_RFC791) (b : Nat) : CRC_RFC791 :=
  if c.needsPad then
    { c with sum := (c.sum + (c.excedent % 256 * 256 + b % 256)) % 2 ^ 32, needsPad := false }
  else
    { c with excedent := b % 256, needsPad := true }

/-- States indistinguishable to Sum and to every future Write: equal
sums, equal pad flag, and equal pending byte whenever a pad is pending
(after consuming a pad the Go code leaves the stale excedent behind,
which later calls never read). -/
def crcEquiv (c1 c2 : CRC_RFC791) : Prop :=
  c1.sum = c2.sum ∧ c1.needsPad = c2.needsPad ∧
    (c1.needsPad = true → c1.excedent % 256 = c2.excedent % 256)

/-- A 54-byte frame passing every validation of RecvEthernet whose IP
TotalLength (20) places payloadEnd before payloadStart: EtherType IPv4,
protocol TCP, TCP data offset 5 words, flags empty. -/
def shortTotalLenBuf : List Nat :=
  [0, 0, 0, 0, 0, 0, 0, 0, 0, 0, 0, 0, 0x08, 0x00,
   0x45, 0x00, 0x00, 0x14, 0, 0, 0, 0, 0, 0x06, 0, 0, 0, 0, 0, 0, 0, 0, 0, 0,
   0, 0, 0, 0, 0, 0, 0, 0, 0, 0, 0, 0, 0x50, 0x00, 0, 0, 0, 0, 0, 0]

/-- A 54-byte frame passing the length, EtherType, TotalLength and
protocol validations whose TCP data-offset field encodes 4 words. -/
def offset4Buf : List Nat :=
  [0, 0, 0, 0, 0, 0, 0, 0, 0, 0, 0, 0, 0x08, 0x00,
   0x45, 0x00, 0x00, 0x14, 0, 0, 0, 0, 0, 0x06, 0, 0, 0, 0, 0, 0, 0, 0, 0, 0,
   0, 0, 0, 0, 0, 0, 0, 0, 0, 0, 0, 0, 0x40, 0x02, 0, 0, 0, 0, 0, 0]

/-- A 54-byte buffer whose EtherType field carries the 802.1Q VLAN TPID
0x8100. -/
def vlanTaggedBuf : List Nat :=
  List.replicate 12 0 ++ [0x81, 0x00] ++ List.replicate 40 0

/-- A TCP header with the given acknowledgment number and every other
field zero, probing the ACK validation of frameRcv. -/
def ackOnlyHeader (a : Nat) : TCPHeader :=
  { SourcePort := 0, DestinationPort := 0, Seq := 0, Ack := a
    OffsetAndFlags := 0, WindowSize := 0, Checksum := 0, UrgentPtr := 0 }

/-- A TCP header whose flags are exactly SYN and every other field
zero. -/
def synOnlyHeader : TCPHeader :=
  { SourcePort := 0, DestinationPort := 0, Seq := 0, Ack := 0
    OffsetAndFlags := 2, WindowSize := 0, Checksum := 0, UrgentPtr := 0 }

/-- A connection in SynRcvd holding the sequence spaces the Listen-state
rx initializes (send.UNA = 0, send.NXT = 1). -/
def synRcvdConn : connState :=
  { snd := { UNA := 0, NXT := 1, WND := 10, WL1 := 0, WL2 := 0, iss := 0, UP := false }
    rcv := { NXT := 0, WND := 0, irs := 0, UP := false }
    state := .SynRcvd }

/-- A SynRcvd connection whose send window wraps the 32-bit sequence
space: UNA = 0xffffffff, NXT = 1. -/
def wrappedConn : connState :=
  { snd := { UNA := 0xffffffff, NXT := 1, WND := 10, WL1 := 0, WL2 := 0
             iss := 0xffffffff, UP := false }
    rcv := { NXT := 0, WND := 0, irs := 0, UP := false }
    state := .SynRcvd }

/-- The connection state RecvEthernet leaves behind after processing
packetSyn from Listen. -/
def postSynConn : connState :=
  { snd := { UNA := 0, NXT := 1, WND := 10, WL1 := 0, WL2 := 0, iss := 0, UP := false }
    rcv := { NXT := 0x3eab64f7, WND := 0xfaf0, irs := 0x3eab64f7, UP := false }
    state := .Listen }

/-- Two-bytes-at-a-time induction on byte lists, matching the word loop
of the checksum. -/
def twoStepInduction {motive : List Nat → Sort _}
    (empty : motive []) (single : ∀ b, motive [b])
    (step : ∀ b0 b1 rest, motive rest → motive (b0 :: b1 :: rest)) :
    ∀ l, motive l
  | [] => empty
  | [b] => single b
  | b0 :: b1 :: rest => step b0 b1 rest (twoStepInduction empty single step rest)

/-- C1: evaluation of the code at the literal 74-byte SYN frame of the
handshake scenario, delivered to a socket in Listen state.  RecvEthernet
succeeds with payload_start = payload_end = 74 and receive_space.IRS =
0x3eab64f7, but the implementation leaves the connection in Listen (no
transition to SynRcvd occurs) and sets receive_space.NXT to the raw
segment sequence number 0x3eab64f7 rather than 0x3eab64f8. -/
theorem recvEthernet_packetSyn_eval :
    RecvEthernet (listen zeroConn) packetSyn = (.ok 74 74, postSynConn) ∧
    postSynConn.rcv.irs = 0x3eab64f7 ∧ postSynConn.rcv.NXT = 0x3eab64f7 ∧
    postSynConn.state = State.Listen := by decide

/-- C2: a buffer that passes the initial length checks (54 bytes) and
whose TCP data-offset field encodes 4 words does not produce the
garbage-TCP.Offset error: RecvEthernet panics inside TCPHeader.Offset
before its own offset check can run, so the typed-error branch is
unreachable and length-checked input can crash. -/
theorem recvEthernet_offset4_panics :
    offset4Buf.length = 54 ∧
    (DecodeTCPHeader (offset4Buf.drop (14 + 20))).OffsetAndFlags / 4096 = 4 ∧
    RecvEthernet (listen zeroConn) offset4Buf = (.panicked, listen zeroConn) := by decide

/-- C3: evaluation of the ACK handling in SynRcvd with send.UNA = 0 and
send.NXT = 1.  connState.frameRcv rejects ack = send.UNA and
ack = send.NXT + 1 and passes ack = send.NXT without error, but it never
mutates the connection; and the socket-level rx, which is what
RecvEthernet actually invokes, accepts every segment in SynRcvd silently
without setting send.UNA and without transitioning to Established. -/
theorem synRcvd_ack_eval :
    frameRcv synRcvdConn (ackOnlyHeader 0) = some .badAck ∧
    frameRcv synRcvdConn (ackOnlyHeader 1) = none ∧
    frameRcv synRcvdConn (ackOnlyHeader 2) = some .badAck ∧
    rx synRcvdConn (ackOnlyHeader 1) = (none, synRcvdConn) ∧
    synRcvdConn.snd.UNA = 0 ∧ synRcvdConn.state = State.SynRcvd := by decide

/-- C4: the ACK bounds test of frameRcv uses native unsigned comparison,
not the wraparound-safe modular ordering: with send.UNA = 0xffffffff and
send.NXT = 1 (a window spanning two sequence numbers across the wrap),
ack = 0 satisfies the mod-wrapped window test send.UNA < ack ≤ send.NXT
yet frameRcv rejects it as a bad ACK. -/
theorem frameRcv_native_comparison_eval :
    ackAcceptableSpec wrappedConn.snd.UNA wrappedConn.snd.NXT 0 = true ∧
    frameRcv wrappedConn (ackOnlyHeader 0) = some .badAck := by decide

/-- C9: the initial send sequence number chosen on SYN acceptance in
Listen is the constant 0: any two SYN segments accepted by listening
sockets yield equal ISS values, both zero, so ISS is neither
unpredictable nor distinct across connections. -/
theorem listen_iss_constant (h1 h2 : TCPHeader) (cs1 cs2 : connState)
    (hs1 : cs1.state = .Listen) (hs2 : cs2.state = .Listen)
    (hf1 : h1.Flags = FlagTCP_SYN) (hf2 : h2.Flags = FlagTCP_SYN) :
    ((rx cs1 h1).2).snd.iss = 0 ∧ ((rx cs1 h1).2).snd.iss = ((rx cs2 h2).2).snd.iss := by
  simp [rx, hs1, hs2, hf1, hf2]

/-- Witness for listen_iss_constant at two concrete listening sockets
and a concrete SYN header. -/
theorem listen_iss_constant_witness :
    ((rx (listen zeroConn) synOnlyHeader).2).snd.iss = 0 ∧
    ((rx (listen zeroConn) synOnlyHeader).2).snd.iss =
      ((rx (listen postSynConn) synOnlyHeader).2).snd.iss :=
  listen_iss_constant synOnlyHeader synOnlyHeader (listen zeroConn) (listen postSynConn)
    rfl rfl rfl rfl

/-- C5 counterexample: RecvEthernet returns without error on a 54-byte
frame whose IP TotalLength is 20, yielding payload_start = 54 strictly
greater than payload_end = 34, so buffer[payload_start:payload_end] is
not a valid slice. -/
theorem recv_success_start_gt_end :
    RecvEthernet (listen zeroConn) shortTotalLenBuf = (.ok 54 34, listen zeroConn) ∧
    ¬ 54 ≤ 34 := by decide

/-- C5 amended: whenever RecvEthernet returns without error, both
payload_start and payload_end are at most len(buffer), so each offset
indexes into the buffer; payload_start ≤ payload_end is not guaranteed. -/
theorem recv_success_bounds (cs cs2 : connState) (buf : List Nat) (s e : Nat)
    (h : RecvEthernet cs buf = (.ok s e, cs2)) :
    s ≤ buf.length ∧ e ≤ buf.length := by
  unfold RecvEthernet at h
  simp only [] at h
  repeat' split at h
  all_goals simp_all [Prod.ext_iff]

/-- Witness for recv_success_bounds at the literal SYN frame. -/
theorem recv_success_bounds_witness : 74 ≤ packetSyn.length ∧ 74 ≤ packetSyn.length :=
  recv_success_bounds (listen zeroConn) postSynConn packetSyn 74 74 (by decide)

/-- C6: structural rejection of invalid input: every buffer of length 10
fails with the buffer-too-short error, every buffer longer than 65535
bytes fails with the buffer-too-long error, and every buffer passing the
length checks whose Ethernet EtherType field holds 0x8100 fails with the
VLAN-unsupported error; in each case the connection is untouched. -/
theorem recv_structural_rejections (cs : connState) (buf : List Nat) :
    (buf.length = 10 → RecvEthernet cs buf = (.err .bufferTooShort, cs)) ∧
    (buf.length > 65535 → RecvEthernet cs buf = (.err .bufferTooLong, cs)) ∧
    (54 ≤ buf.length → buf.length ≤ 65535 → be16 buf 12 = 0x8100 →
      RecvEthernet cs buf = (.err .vlanUnsupported, cs)) := by
  refine ⟨fun h => ?_, fun h => ?_, fun h1 h2 h3 => ?_⟩
  · unfold RecvEthernet
    rw [if_neg (by omega), if_pos (by omega)]
  · unfold RecvEthernet
    rw [if_pos (by omega)]
  · unfold RecvEthernet
    rw [if_neg (by omega), if_neg (by omega)]
    simp [DecodeEthernetHeader, EthernetHeader.IsVLAN, h3]

/-- Witness for recv_structural_rejections at a 10-byte buffer, a
65536-byte buffer and a 54-byte VLAN-tagged buffer. -/
theorem recv_structural_rejections_witness :
    RecvEthernet zeroConn (List.replicate 10 3) = (.err .bufferTooShort, zeroConn) ∧
    RecvEthernet zeroConn (List.replicate 65536 3) = (.err .bufferTooLong, zeroConn) ∧
    RecvEthernet zeroConn vlanTaggedBuf = (.err .vlanUnsupported, zeroConn) :=
  ⟨(recv_structural_rejections zeroConn (List.replicate 10 3)).1 (by simp),
   (recv_structural_rejections zeroConn (List.replicate 65536 3)).2.1
     (by rw [List.length_replicate]; omega),
   (recv_structural_rejections zeroConn vlanTaggedBuf).2.2 (by decide) (by decide) (by decide)⟩

/-- The fold loop never returns a value above 65535. -/
theorem foldCarry_le (s : Nat) : foldCarry s ≤ 65535 := by
  induction s using Nat.strong_induction_on with
  | _ s ih =>
    rw [foldCarry]
    split
    next h => exact ih _ (by omega)
    next h => omega

/-- The fold step replaces 65536 q + r by q + r, and 65536 is congruent
to 1 modulo 65535, so folding preserves the residue modulo 65535. -/
theorem foldCarry_mod (s : Nat) : foldCarry s % 65535 = s % 65535 := by
  induction s using Nat.strong_induction_on with
  | _ s ih =>
    rw [foldCarry]
    split
    next h => rw [ih _ (by omega)]; omega
    next h => rfl

/-- Folding a positive sum stays positive. -/
theorem foldCarry_pos (s : Nat) : 0 < s → 0 < foldCarry s := by
  induction s using Nat.strong_induction_on with
  | _ s ih =>
    intro hs
    rw [foldCarry]
    split
    next h => exact ih _ (by omega) (by omega)
    next h => omega

/-- Folding never increases the sum. -/
theorem foldCarry_le_self (s : Nat) : foldCarry s ≤ s := by
  induction s using Nat.strong_induction_on with
  | _ s ih =>
    rw [foldCarry]
    split
    next h => exact le_trans (ih _ (by omega)) (by omega)
    next h => exact le_refl s

/-- A positive multiple of 65535 folds to 65535 itself. -/
theorem foldCarry_65535_mul (k : Nat) (hk : 0 < k) : foldCarry (65535 * k) = 65535 := by
  have h1 := foldCarry_le (65535 * k)
  have h2 := foldCarry_mod (65535 * k)
  have h3 := foldCarry_pos (65535 * k) (by omega)
  omega

/-- Core ones-complement identity: adding to a 32-bit accumulated sum
the complement of its folded value never overflows 2 ^ 32, and folding
the total yields the all-ones word 65535. -/
theorem fold_roundTrip (s : Nat) (hs : s < 2 ^ 32) :
    s + (65535 - foldCarry s) < 2 ^ 32 ∧
    foldCarry (s + (65535 - foldCarry s)) = 65535 := by
  have h1 := foldCarry_le s
  have h2 := foldCarry_mod s
  have h3 := foldCarry_le_self s
  have h4 := foldCarry_pos s
  have hnw : s + (65535 - foldCarry s) < 2 ^ 32 := by
    by_contra hw
    push_neg at hw
    have hs0 : 0 < s := by omega
    have hf0 : 0 < foldCarry s := h4 hs0
    omega
  refine ⟨hnw, ?_⟩
  have hdvd : 65535 ∣ (s + (65535 - foldCarry s)) := by omega
  obtain ⟨k, hk⟩ := hdvd
  have hkpos : 0 < k := by omega
  rw [hk]
  exact foldCarry_65535_mul k hkpos

theorem crcEquiv_refl (c : CRC_RFC791) : crcEquiv c c := ⟨rfl, rfl, fun _ => rfl⟩

theorem crcEquiv_symm {a b : CRC_RFC791} (h : crcEquiv a b) : crcEquiv b a := by
  obtain ⟨hs, hp, he⟩ := h
  exact ⟨hs.symm, hp.symm, fun hb => (he (hp ▸ hb)).symm⟩

theorem crcEquiv_trans {a b c : CRC_RFC791} (h1 : crcEquiv a b) (h2 : crcEquiv b c) :
    crcEquiv a c := by
  obtain ⟨s1, p1, e1⟩ := h1
  obtain ⟨s2, p2, e2⟩ := h2
  exact ⟨s1.trans s2, p1.trans p2, fun h => (e1 h).trans (e2 (p1 ▸ h))⟩

/-- Pushing one byte respects accumulator equivalence. -/
theorem crcPush_equiv {c1 c2 : CRC_RFC791} (h : crcEquiv c1 c2) (b : Nat) :
    crcEquiv (crcPush c1 b) (crcPush c2 b) := by
  obtain ⟨hs, hp, he⟩ := h
  by_cases hb : c1.needsPad = true
  · have hb2 : c2.needsPad = true := hp ▸ hb
    have hee := he hb
    simp [crcPush, hb, hb2, crcEquiv, hs, hee]
  · have hb1 : c1.needsPad = false := by simpa using hb
    have hb2 : c2.needsPad = false := hp ▸ hb1
    simp [crcPush, hb1, hb2, crcEquiv, hs]

theorem crcFoldlPush_equiv {c1 c2 : CRC_RFC791} (h : crcEquiv c1 c2) (l : List Nat) :
    crcEquiv (l.foldl crcPush c1) (l.foldl crcPush c2) := by
  induction l generalizing c1 c2 with
  | nil => exact h
  | cons b rest ih => exact ih (crcPush_equiv h b)

/-- The word loop of Write is equivalent (up to the stale excedent the
Go code leaves behind) to pushing the same bytes one at a time. -/
theorem crcWriteAligned_equiv_foldl (l : List Nat) (c1 c2 : CRC_RFC791)
    (h : crcEquiv c1 c2) (hp : c1.needsPad = false) :
    crcEquiv (crcWriteAligned c1 l) (l.foldl crcPush c2) := by
  induction l using twoStepInduction generalizing c1 c2 with
  | empty => exact h
  | single b =>
    obtain ⟨hs, hpe, he⟩ := h
    have hp2 : c2.needsPad = false := hpe ▸ hp
    simp [crcWriteAligned, crcPush, hp2, crcEquiv, hs]
  | step b0 b1 rest ih =>
    obtain ⟨hs, hpe, he⟩ := h
    have hp2 : c2.needsPad = false := hpe ▸ hp
    have e2 : crcPush (crcPush c2 b0) b1 =
        { c2 with sum := (c2.sum + (b0 % 256 * 256 + b1 % 256)) % 2 ^ 32
                  excedent := b0 % 256, needsPad := false } := by
      simp [crcPush, hp2, Nat.mod_mod_of_dvd]
    have e1 : crcWriteAligned c1 (b0 :: b1 :: rest) =
        crcWriteAligned
          { c1 with sum := (c1.sum + (b0 % 256 * 256 + b1 % 256)) % 2 ^ 32 } rest := rfl
    have s2 : List.foldl crcPush c2 (b0 :: b1 :: rest) =
        List.foldl crcPush (crcPush (crcPush c2 b0) b1) rest := rfl
    rw [e1, s2, e2]
    exact ih _ _ ⟨by simp [hs], by simp [hp], fun hcon => by simp [hp] at hcon⟩ (by simp [hp])

/-- A successful Write is equivalent to pushing its bytes one at a
time. -/
theorem crcWrite_equiv_foldl (c : CRC_RFC791) (buff : List Nat) (c2 : CRC_RFC791)
    (h : crcWrite c buff = some c2) : crcEquiv c2 (buff.foldl crcPush c) := by
  unfold crcWrite at h
  split at h
  next hpad =>
    cases buff with
    | nil => cases h
    | cons b0 rest =>
      injection h with h
      subst h
      have hpush : crcPush c b0 =
          { c with sum := (c.sum + (c.excedent % 256 * 256 + b0 % 256)) % 2 ^ 32
                   needsPad := false } := by
        simp [crcPush, hpad]
      show crcEquiv _ (List.foldl crcPush (crcPush c b0) rest)
      rw [hpush]
      exact crcWriteAligned_equiv_foldl rest _ _ (crcEquiv_refl _) rfl
  next hpad =>
    injection h with h
    subst h
    exact crcWriteAligned_equiv_foldl buff c c (crcEquiv_refl _) (by simpa using hpad)

/-- Write succeeds on every call whose slice is nonempty or that finds
no pending pad. -/
theorem crcWrite_isSome (c : CRC_RFC791) (buff : List Nat)
    (h : buff ≠ [] ∨ c.needsPad = false) : ∃ c2, crcWrite c buff = some c2 := by
  unfold crcWrite
  split
  next hpad =>
    cases buff with
    | nil =>
      rcases h with h | h
      · exact absurd rfl h
      · rw [hpad] at h; cases h
    | cons b0 rest => exact ⟨_, rfl⟩
  next hpad => exact ⟨_, rfl⟩

/-- Sum returns equal values on equivalent accumulators. -/
theorem crcSum_equiv {c1 c2 : CRC_RFC791} (h : crcEquiv c1 c2) : crcSum c1 = crcSum c2 := by
  obtain ⟨hs, hp, he⟩ := h
  by_cases hb : c1.needsPad = true
  · have hb2 : c2.needsPad = true := hp ▸ hb
    simp [crcSum, crcPaddedSum, hb, hb2, hs, he hb]
  · have hb1 : c1.needsPad = false := by simpa using hb
    have hb2 : c2.needsPad = false := hp ▸ hb1
    simp [crcSum, crcPaddedSum, hb1, hb2, hs]

/-- Writing nonempty chunks in order succeeds and is equivalent to
pushing the concatenated bytes one at a time. -/
theorem crcWriteMulti_equiv (parts : List (List Nat)) (c cf : CRC_RFC791)
    (he : crcEquiv c cf) (hne : ∀ p ∈ parts, p ≠ []) :
    ∃ c2, crcWriteMulti c parts = some c2 ∧
      crcEquiv c2 (parts.flatten.foldl crcPush cf) := by
  induction parts generalizing c cf with
  | nil => exact ⟨c, rfl, by simpa using he⟩
  | cons p ps ih =>
    have hpne : p ≠ [] := hne p (by simp)
    obtain ⟨cw, hcw⟩ := crcWrite_isSome c p (Or.inl hpne)
    have h1 : crcEquiv cw (p.foldl crcPush c) := crcWrite_equiv_foldl c p cw hcw
    have h2 : crcEquiv cw (p.foldl crcPush cf) :=
      crcEquiv_trans h1 (crcFoldlPush_equiv he p)
    obtain ⟨c2, hc2, hc2e⟩ := ih cw (p.foldl crcPush cf) h2 (fun q hq => hne q (by simp [hq]))
    refine ⟨c2, ?_, ?_⟩
    · simp only [crcWriteMulti, hcw]
      exact hc2
    · simpa [List.foldl_append] using hc2e

/-- The byte-push accumulator keeps its sum below 2 ^ 32. -/
theorem crcFoldlPush_sum_lt (l : List Nat) (c : CRC_RFC791) (h : c.sum < 2 ^ 32) :
    (l.foldl crcPush c).sum < 2 ^ 32 := by
  induction l generalizing c with
  | nil => exact h
  | cons b rest ih =>
    apply ih
    unfold crcPush
    split
    · exact Nat.mod_lt _ (by norm_num)
    · exact h

/-- The padded sum of a 32-bit accumulator is a 32-bit value. -/
theorem crcPaddedSum_lt (c : CRC_RFC791) (h : c.sum < 2 ^ 32) : crcPaddedSum c < 2 ^ 32 := by
  unfold crcPaddedSum
  split
  · exact Nat.mod_lt _ (by norm_num)
  · exact h

/-- C7: checksum round trip.  For any byte sequence, a fresh Write of the
sequence yields an accumulator whose padded sum, accumulated together
(uint32 addition) with the complement value returned by Sum over that
sequence and then folded, gives the all-ones word 0xffff. -/
theorem checksum_round_trip (data : List Nat) :
    crcWrite crcInit data = some (crcWriteAligned crcInit data) ∧
    foldCarry ((crcPaddedSum (crcWriteAligned crcInit data)
      + crcSum (crcWriteAligned crcInit data)) % 2 ^ 32) = 65535 := by
  refine ⟨rfl, ?_⟩
  set c := crcWriteAligned crcInit data with hc
  have hequiv : crcEquiv c (data.foldl crcPush crcInit) :=
    crcWriteAligned_equiv_foldl data crcInit crcInit (crcEquiv_refl _) rfl
  have hsum : c.sum < 2 ^ 32 := by
    rw [hequiv.1]
    exact crcFoldlPush_sum_lt data crcInit (by norm_num [crcInit])
  have hps := crcPaddedSum_lt c hsum
  obtain ⟨hnw, hfold⟩ := fold_roundTrip (crcPaddedSum c) hps
  have hsval : crcSum c = 65535 - foldCarry (crcPaddedSum c) := rfl
  rw [hsval, Nat.mod_eq_of_lt hnw]
  exact hfold

/-- C8: the checksum engine is a streaming accumulator.  For every byte
sequence and every split of it into nonempty consecutive chunks, the
chunked Writes succeed and the value Sum returns equals the value after
a single Write of the whole sequence (including splits that leave an
odd byte pending across a call boundary), and Reset returns every
accumulator to the zero state. -/
theorem checksum_streaming (data : List Nat) (parts : List (List Nat))
    (hjoin : parts.flatten = data) (hne : ∀ p ∈ parts, p ≠ []) :
    ∃ cm c1, crcWriteMulti crcInit parts = some cm ∧
      crcWrite crcInit data = some c1 ∧ crcSum cm = crcSum c1 ∧
      ∀ c : CRC_RFC791, crcReset c = crcInit := by
  obtain ⟨cm, hcm, hcme⟩ := crcWriteMulti_equiv parts crcInit crcInit (crcEquiv_refl _) hne
  refine ⟨cm, crcWriteAligned crcInit data, hcm, rfl, ?_, fun c => rfl⟩
  have h1 : crcEquiv (crcWriteAligned crcInit data) (data.foldl crcPush crcInit) :=
    crcWriteAligned_equiv_foldl data crcInit crcInit (crcEquiv_refl _) rfl
  rw [hjoin] at hcme
  exact crcSum_equiv (crcEquiv_trans hcme (crcEquiv_symm h1))

/-- Witness for checksum_streaming: the sequence 1,2,3 split as [1] then
[2,3], a split point falling after an odd number of bytes. -/
theorem checksum_streaming_witness :
    ∃ cm c1, crcWriteMulti crcInit [[1], [2, 3]] = some cm ∧
      crcWrite crcInit [1, 2, 3] = some c1 ∧ crcSum cm = crcSum c1 ∧
      ∀ c : CRC_RFC791, crcReset c = crcInit :=
  checksum_streaming [1, 2, 3] [[1], [2, 3]] (by decide) (by decide)

/-- C10: Write called with an empty slice while an odd byte is pending
reads the first element of the empty slice (a panic, modelled as none);
every call made with a nonempty slice, or with no pad pending,
succeeds. -/
theorem crcWrite_empty_pad_behavior (c : CRC_RFC791) :
    (c.needsPad = true → crcWrite c [] = none) ∧
    ∀ buff : List Nat, (buff ≠ [] ∨ c.needsPad = false) →
      ∃ c2, crcWrite c buff = some c2 := by
  constructor
  · intro h
    simp [crcWrite, h]
  · exact fun buff h => crcWrite_isSome c buff h

/-- Witness for crcWrite_empty_pad_behavior at a concrete accumulator
with a pending pad. -/
theorem crcWrite_empty_pad_behavior_witness :
    crcWrite { sum := 0, excedent := 7, needsPad := true } [] = none ∧
    ∃ c2, crcWrite { sum := 0, excedent := 7, needsPad := true } [5] = some c2 :=
  ⟨(crcWrite_empty_pad_behavior _).1 rfl,
   (crcWrite_empty_pad_behavior _).2 [5] (Or.inl (by simp))⟩
